import Mathlib

/-!
Verification of the grid-collage builder (`src/collage.py`) against its
natural-language specification.

The Python source is shallowly embedded: Python `int` becomes `ℤ` (with
Python floor division `//` rendered as `Int.fdiv`), Python `float` values
(the crop gravity) become `ℚ` with `math.sqrt`/`int(...)` modelled by exact
arithmetic, PIL images become a record of width, height and a pixel
function, and the external collaborators (the image loader of `open_image`
and PIL's `Image.thumbnail`) are parameters of the compositor, as the spec
treats them as external collaborators.  Fallible paths (the early
`print`-and-`return` exits of `create_collage` and
`create_auto_grid_collage`) are rendered as `Except String`.
-/

/-- Result dictionary of `calc_grid` (src/collage.py:164,168): error, the
equation tag (`"SQ"` or `"SQ2"`), the winning `x`, and the grid `(x, x)` or
`(x, x + 2)`. -/
structure GridResult where
  error : ℤ
  equation : String
  x : ℕ
  grid : ℕ × ℕ
deriving DecidableEq, Repr

/-- The update guard of the `calc_grid` loop (src/collage.py:162,166):
a candidate error is accepted when it is non-negative and strictly below
the best error seen so far (`min_error` starts at `float('inf')`, modelled
by the accumulator being `none`). -/
def improves (e : ℤ) : Option GridResult → Bool
  | none => decide (0 ≤ e)
  | some r => decide (0 ≤ e) && decide (e < r.error)

/-- One conditional update of the held best candidate, as performed for
each of the two candidate shapes inside the loop body of `calc_grid`. -/
def stepC (acc : Option GridResult) (c : GridResult) : Option GridResult :=
  if improves c.error acc then some c else acc

/-- The SQUARE candidate at `x` (src/collage.py:161,164). -/
def sqCand (n : ℤ) (x : ℕ) : GridResult :=
  ⟨n - (x : ℤ) * x, "SQ", x, (x, x)⟩

/-- The SQUARE_PLUS_TWO candidate at `x` (src/collage.py:165,168). -/
def sq2Cand (n : ℤ) (x : ℕ) : GridResult :=
  ⟨n - (x : ℤ) * ((x : ℤ) + 2), "SQ2", x, (x, x + 2)⟩

/-- The body of the `for x in range(1, limit)` loop of `calc_grid`
(src/collage.py:160-168): try the SQUARE candidate, then the
SQUARE_PLUS_TWO candidate against the updated best. -/
def calcStep (n : ℤ) (acc : Option GridResult) (x : ℕ) : Option GridResult :=
  stepC (stepC acc (sqCand n x)) (sq2Cand n x)

/-- Executable integer square root (largest `j ≤ k` with `j * j ≤ n`,
searched downward from fuel `k`); used to model `int(math.sqrt(n))` by a
definition the kernel can evaluate. -/
def isqrtAux (n : ℕ) : ℕ → ℕ
  | 0 => 0
  | k + 1 => if (k + 1) * (k + 1) ≤ n then k + 1 else isqrtAux n k

/-- `int(math.sqrt(n))`, modelled exactly: the floor of the real square
root of `n`.  Proved equal to `Nat.sqrt` below. -/
def isqrt (n : ℕ) : ℕ :=
  isqrtAux n n

theorem isqrtAux_eq (n : ℕ) : ∀ k, n.sqrt ≤ k → isqrtAux n k = n.sqrt := by
  intro k
  induction k with
  | zero => intro h; simpa [isqrtAux] using (Nat.le_zero.mp h).symm
  | succ k ih =>
    intro h
    by_cases hle : (k + 1) * (k + 1) ≤ n
    · have h1 : k + 1 ≤ n.sqrt := Nat.le_sqrt.mpr hle
      simp only [isqrtAux, if_pos hle]
      exact Nat.le_antisymm h1 h
    · have h2 : n.sqrt < k + 1 := by
        by_contra hcon
        exact hle (Nat.le_sqrt.mp (Nat.le_of_not_lt hcon))
      simp [isqrtAux, hle, ih (Nat.lt_succ_iff.mp h2)]

theorem isqrt_eq_sqrt (n : ℕ) : isqrt n = n.sqrt :=
  isqrtAux_eq n n (Nat.sqrt_le_self n)

/-- `calc_grid` (src/collage.py:151-169).  `limit = int(math.sqrt(n)) + 2`
is modelled with the exact integer square root, and `range(1, limit)` is
`List.range' 1 (sqrt + 1)`.  The `n < 1` early `return None` and the
unreached empty-dict fallback are both `none`. -/
def calc_grid (n : ℤ) : Option GridResult :=
  if n < 1 then none
  else (List.range' 1 (isqrt n.toNat + 1)).foldl (calcStep n) none

/-- The candidate list of the `calc_grid` search, in evaluation order:
`x` ascending over the search range, SQUARE before SQUARE_PLUS_TWO at each
`x`. -/
def candidates (n : ℤ) : List GridResult :=
  (List.range' 1 (isqrt n.toNat + 1)).flatMap (fun x => [sqCand n x, sq2Cand n x])

/-- The selection rule stated by the spec (§4.1): scan the candidates in
order, hold the best seen so far, and replace it only by a candidate with a
strictly smaller non-negative error (so the first of several equal-error
valid candidates wins). -/
def firstStrictMin (l : List GridResult) : Option GridResult :=
  l.foldl stepC none

theorem improves_nonneg {e : ℤ} {acc : Option GridResult}
    (h : improves e acc = true) : 0 ≤ e := by
  cases acc with
  | none => simpa [improves] using h
  | some r =>
    have h1 : (0 ≤ e ∧ e < r.error) := by simpa [improves] using h
    exact h1.1

theorem improves_none_iff {e : ℤ} : improves e none = true ↔ 0 ≤ e := by
  simp [improves]

theorem improves_some_iff {e : ℤ} {r : GridResult} :
    improves e (some r) = true ↔ 0 ≤ e ∧ e < r.error := by
  simp [improves]

theorem improves_false_some {e : ℤ} {acc : Option GridResult}
    (h : improves e acc = false) (he : 0 ≤ e) :
    ∃ a, acc = some a ∧ a.error ≤ e := by
  cases acc with
  | none => simp [improves, he] at h
  | some a =>
    refine ⟨a, rfl, ?_⟩
    simp only [improves, Bool.and_eq_false_iff, decide_eq_false_iff_not] at h
    rcases h with h | h
    · exact absurd he h
    · exact le_of_not_lt h

theorem foldl_stepC_some :
    ∀ (l : List GridResult) (r0 : GridResult),
      ∃ r, l.foldl stepC (some r0) = some r := by
  intro l
  induction l with
  | nil => exact fun r0 => ⟨r0, rfl⟩
  | cons c t ih =>
    intro r0
    cases hc : improves c.error (some r0) with
    | true => simpa [stepC, hc] using ih c
    | false => simpa [stepC, hc] using ih r0

theorem foldl_stepC_error_le :
    ∀ (l : List GridResult) (r0 r : GridResult),
      l.foldl stepC (some r0) = some r → r.error ≤ r0.error := by
  intro l
  induction l with
  | nil => intro r0 r h; cases h; exact le_refl _
  | cons c t ih =>
    intro r0 r h
    cases hc : improves c.error (some r0) with
    | true =>
      simp only [List.foldl_cons, stepC, hc, if_true] at h
      exact le_of_lt (lt_of_le_of_lt (ih c r h) (improves_some_iff.mp hc).2)
    | false =>
      simp only [List.foldl_cons, stepC, hc, Bool.false_eq_true, if_false] at h
      exact ih r0 r h

theorem foldl_stepC_valid :
    ∀ (l : List GridResult) (acc : Option GridResult) (r : GridResult),
      (∀ r0, acc = some r0 → 0 ≤ r0.error) →
      l.foldl stepC acc = some r → 0 ≤ r.error := by
  intro l
  induction l with
  | nil => intro acc r hacc h; exact hacc r h
  | cons c t ih =>
    intro acc r hacc h
    simp only [List.foldl_cons] at h
    refine ih (stepC acc c) r ?_ h
    intro r0 h0
    cases hc : improves c.error acc with
    | true =>
      simp only [stepC, hc, if_true] at h0
      cases h0
      exact improves_nonneg hc
    | false =>
      simp only [stepC, hc, Bool.false_eq_true, if_false] at h0
      exact hacc r0 h0

theorem foldl_stepC_mem :
    ∀ (l : List GridResult) (acc : Option GridResult) (r : GridResult),
      l.foldl stepC acc = some r → acc = some r ∨ r ∈ l := by
  intro l
  induction l with
  | nil => intro acc r h; exact Or.inl h
  | cons c t ih =>
    intro acc r h
    simp only [List.foldl_cons] at h
    rcases ih (stepC acc c) r h with h1 | h1
    · cases hc : improves c.error acc with
      | true =>
        simp only [stepC, hc, if_true] at h1
        cases h1
        exact Or.inr (List.mem_cons_self _ _)
      | false =>
        simp only [stepC, hc, Bool.false_eq_true, if_false] at h1
        exact Or.inl h1
    · exact Or.inr (List.mem_cons_of_mem _ h1)

theorem foldl_stepC_min :
    ∀ (l : List GridResult) (acc : Option GridResult) (r : GridResult),
      l.foldl stepC acc = some r →
      ∀ c ∈ l, 0 ≤ c.error → r.error ≤ c.error := by
  intro l
  induction l with
  | nil => intro acc r _ c hc; cases hc
  | cons c t ih =>
    intro acc r h d hd hde
    simp only [List.foldl_cons] at h
    rcases List.mem_cons.mp hd with rfl | hdt
    · cases hc : improves d.error acc with
      | true =>
        simp only [stepC, hc, if_true] at h
        exact foldl_stepC_error_le t d r h
      | false =>
        rcases improves_false_some hc hde with ⟨a, rfl, ha⟩
        simp only [stepC, hc, Bool.false_eq_true, if_false] at h
        exact le_trans (foldl_stepC_error_le t a r h) ha
    · exact ih (stepC acc c) r h d hdt hde

/-- The predicate "valid candidate at least as good as `r`", used to state
that `r` is the first minimum in evaluation order. -/
def atLeastAsGood (r : GridResult) (c : GridResult) : Bool :=
  decide (0 ≤ c.error) && decide (c.error ≤ r.error)

theorem foldl_stepC_find :
    ∀ (l : List GridResult) (r0 r : GridResult),
      l.foldl stepC (some r0) = some r → r ≠ r0 →
      r.error < r0.error ∧ l.find? (atLeastAsGood r) = some r := by
  intro l
  induction l with
  | nil =>
    intro r0 r h hne
    cases h
    exact absurd rfl hne
  | cons c t ih =>
    intro r0 r h hne
    simp only [List.foldl_cons] at h
    cases hc : improves c.error (some r0) with
    | true =>
      simp only [stepC, hc, if_true] at h
      rcases improves_some_iff.mp hc with ⟨hc0, hclt⟩
      by_cases hrc : r = c
      · refine ⟨by rw [hrc]; exact hclt, ?_⟩
        have hp : atLeastAsGood r c = true := by
          simp [atLeastAsGood, hrc, hc0]
        rw [List.find?_cons_of_pos _ hp, hrc]
      · rcases ih c r h hrc with ⟨hlt, hfind⟩
        have hp : atLeastAsGood r c = false := by
          simp only [atLeastAsGood, Bool.and_eq_false_iff, decide_eq_false_iff_not]
          exact Or.inr (not_le_of_lt hlt)
        rw [List.find?_cons_of_neg _ (by simp [hp])]
        exact ⟨lt_trans hlt hclt, hfind⟩
    | false =>
      simp only [stepC, hc, Bool.false_eq_true, if_false] at h
      rcases ih r0 r h hne with ⟨hlt, hfind⟩
      have hp : atLeastAsGood r c = false := by
        simp only [atLeastAsGood, Bool.and_eq_false_iff, decide_eq_false_iff_not]
        by_cases hc0 : 0 ≤ c.error
        · rcases improves_false_some hc hc0 with ⟨a, ha, hae⟩
          cases ha
          exact Or.inr (not_le_of_lt (lt_of_lt_of_le hlt hae))
        · exact Or.inl hc0
      rw [List.find?_cons_of_neg _ (by simp [hp])]
      exact ⟨hlt, hfind⟩

theorem firstStrictMin_find :
    ∀ (l : List GridResult) (r : GridResult),
      firstStrictMin l = some r → l.find? (atLeastAsGood r) = some r := by
  intro l
  induction l with
  | nil => intro r h; cases h
  | cons c t ih =>
    intro r h
    simp only [firstStrictMin, List.foldl_cons] at h ih
    cases hc : improves c.error none with
    | true =>
      simp only [stepC, hc, if_true] at h
      have hc0 : 0 ≤ c.error := improves_nonneg hc
      by_cases hrc : r = c
      · have hp : atLeastAsGood r c = true := by simp [atLeastAsGood, hrc, hc0]
        rw [List.find?_cons_of_pos _ hp, hrc]
      · rcases foldl_stepC_find t c r h hrc with ⟨hlt, hfind⟩
        have hp : atLeastAsGood r c = false := by
          simp only [atLeastAsGood, Bool.and_eq_false_iff, decide_eq_false_iff_not]
          exact Or.inr (not_le_of_lt hlt)
        rw [List.find?_cons_of_neg _ (by simp [hp])]
        exact hfind
    | false =>
      simp only [stepC, hc, Bool.false_eq_true, if_false] at h
      have hp : atLeastAsGood r c = false := by
        simp only [atLeastAsGood, Bool.and_eq_false_iff, decide_eq_false_iff_not]
        exact Or.inl (by simpa [improves] using hc)
      rw [List.find?_cons_of_neg _ (by simp [hp])]
      exact ih r h

theorem foldl_calcStep_eq (n : ℤ) :
    ∀ (l : List ℕ) (acc : Option GridResult),
      l.foldl (calcStep n) acc =
        (l.flatMap (fun x => [sqCand n x, sq2Cand n x])).foldl stepC acc := by
  intro l
  induction l with
  | nil => intro acc; rfl
  | cons x t ih =>
    intro acc
    simp only [List.foldl_cons, List.flatMap_cons, List.foldl_append]
    exact ih (calcStep n acc x)

theorem calc_grid_eq_firstStrictMin {n : ℤ} (hn : 1 ≤ n) :
    calc_grid n = firstStrictMin (candidates n) := by
  simp only [calc_grid, if_neg (not_lt.mpr hn), candidates, firstStrictMin]
  exact foldl_calcStep_eq n _ none

theorem mem_candidates {n : ℤ} {c : GridResult} :
    c ∈ candidates n ↔
      ∃ x : ℕ, 1 ≤ x ∧ x ≤ isqrt n.toNat + 1 ∧ (c = sqCand n x ∨ c = sq2Cand n x) := by
  simp only [candidates, List.mem_flatMap, List.mem_range'_1]
  constructor
  · rintro ⟨x, ⟨hx1, hx2⟩, hc⟩
    refine ⟨x, hx1, by omega, ?_⟩
    simpa using hc
  · rintro ⟨x, hx1, hx2, hc⟩
    refine ⟨x, ⟨hx1, by omega⟩, by simpa using hc⟩

theorem candidates_cons {n : ℤ} :
    candidates n = sqCand n 1 :: sq2Cand n 1 :: 
      (List.range' 2 (isqrt n.toNat)).flatMap (fun x => [sqCand n x, sq2Cand n x]) := by
  simp [candidates, List.range'_succ]

theorem calc_grid_isSome {n : ℤ} (hn : 1 ≤ n) :
    ∃ r, calc_grid n = some r := by
  rw [calc_grid_eq_firstStrictMin hn, candidates_cons]
  have h1 : improves (sqCand n 1).error none = true := by
    simp only [sqCand, improves, decide_eq_true_eq]
    push_cast
    omega
  simp only [firstStrictMin, List.foldl_cons]
  have h2 : stepC none (sqCand n 1) = some (sqCand n 1) := by
    simp [stepC, h1]
  rw [h2]
  cases h3 : improves (sq2Cand n 1).error (some (sqCand n 1)) with
  | true =>
    simp only [stepC, h3, if_true]
    exact foldl_stepC_some _ _
  | false =>
    simp only [stepC, h3, Bool.false_eq_true, if_false]
    exact foldl_stepC_some _ _

/-- C1 (counterexample): called with n = 8, `calc_grid` does NOT return the
shape (3,3) with error 1: the SQUARE_PLUS_TWO candidate (2,4) has error 0,
which is strictly smaller, so the square-preferred tie-break never applies. -/
theorem calc_grid_eight_not_3x3 :
    (calc_grid 8).map (fun r => (r.grid, r.error)) ≠ some ((3, 3), 1) := by
  decide

/-- C1 (amended): called with n = 8, `calc_grid` returns the shape (2,4)
with error 0, produced by the SQUARE_PLUS_TWO formula at x = 2. -/
theorem calc_grid_eight :
    calc_grid 8 = some ⟨0, "SQ2", 2, (2, 4)⟩ := by
  decide

/-- What `calc_grid` actually guarantees: for every n ≥ 1 it returns a
shape (rows, cols) with rows*cols ≤ n and error = n − rows*cols ≥ 0 (the
code's error counts images that do NOT fit, since a candidate is valid when
`n - x*x >= 0`), and no candidate shape (x,x) or (x,x+2) with non-negative
error smaller than the returned error exists for any x in the search range
1 up to floor(sqrt(n))+1 inclusive; for n < 1 it returns `none`.  Note the
direction rows*cols ≤ n: the spec's claim rows*cols ≥ n fails (see
`calc_grid_ten_drops_an_image`). -/
theorem calc_grid_optimal (n : ℤ) :
    (n < 1 → calc_grid n = none) ∧
    (1 ≤ n → ∃ r, calc_grid n = some r ∧
      (r.grid.1 : ℤ) * (r.grid.2 : ℤ) ≤ n ∧
      r.error = n - (r.grid.1 : ℤ) * (r.grid.2 : ℤ) ∧
      ∀ x : ℕ, 1 ≤ x → x ≤ isqrt n.toNat + 1 →
        (0 ≤ n - (x : ℤ) * (x : ℤ) → r.error ≤ n - (x : ℤ) * (x : ℤ)) ∧
        (0 ≤ n - (x : ℤ) * ((x : ℤ) + 2) →
          r.error ≤ n - (x : ℤ) * ((x : ℤ) + 2))) := by
  constructor
  · intro h
    simp [calc_grid, h]
  · intro hn
    obtain ⟨r, hr⟩ := calc_grid_isSome hn
    have hfold : (candidates n).foldl stepC none = some r := by
      have := calc_grid_eq_firstStrictMin hn
      rw [this] at hr
      exact hr
    have hvalid : 0 ≤ r.error :=
      foldl_stepC_valid _ none r (fun r0 h0 => by cases h0) hfold
    have hcoh : r.error = n - (r.grid.1 : ℤ) * (r.grid.2 : ℤ) := by
      rcases foldl_stepC_mem _ none r hfold with h0 | hmem
      · cases h0
      · rcases mem_candidates.mp hmem with ⟨x, _, _, hc | hc⟩
        · rw [hc]
          simp [sqCand]
        · rw [hc]
          simp only [sq2Cand]
          push_cast
          ring
    refine ⟨r, hr, ?_, hcoh, ?_⟩
    · rw [hcoh] at hvalid
      linarith
    · intro x hx1 hx2
      constructor
      · intro hpos
        have hmem : sqCand n x ∈ candidates n :=
          mem_candidates.mpr ⟨x, hx1, hx2, Or.inl rfl⟩
        have := foldl_stepC_min _ none r hfold _ hmem (by simpa [sqCand] using hpos)
        simpa [sqCand] using this
      · intro hpos
        have hmem : sq2Cand n x ∈ candidates n :=
          mem_candidates.mpr ⟨x, hx1, hx2, Or.inr rfl⟩
        have := foldl_stepC_min _ none r hfold _ hmem (by simpa [sq2Cand] using hpos)
        simpa [sq2Cand] using this

/-- C3 (code/spec divergence, failing input n = 10): `calc_grid 10`
returns the grid (3,3) whose capacity 9 is strictly below n = 10, refuting
the claim that the returned shape always satisfies rows*cols ≥ n; the
"error" of 1 is an image that does not fit, not an empty cell. -/
theorem calc_grid_ten_drops_an_image :
    calc_grid 10 = some ⟨1, "SQ", 3, (3, 3)⟩ ∧ (3 * 3 : ℤ) < 10 := by
  exact ⟨by decide, by decide⟩

/-- C4: `calc_grid`'s selection is the fixed deterministic rule: candidates
are evaluated for x ascending with SQUARE (x,x) before SQUARE_PLUS_TWO
(x,x+2) at each x (the list `candidates`), the held best is replaced only
by a strictly smaller non-negative error (`firstStrictMin`), and hence the
returned result is the FIRST candidate in that order among the valid
candidates achieving the minimal error (the `find?` clause). -/
theorem calc_grid_tie_break (n : ℤ) (hn : 1 ≤ n) :
    calc_grid n = firstStrictMin (candidates n) ∧
    ∀ r, calc_grid n = some r →
      (candidates n).find? (atLeastAsGood r) = some r := by
  refine ⟨calc_grid_eq_firstStrictMin hn, fun r hr => ?_⟩
  refine firstStrictMin_find _ r ?_
  rw [← calc_grid_eq_firstStrictMin hn]
  exact hr

/-- Witness for C4 at n = 8: the fold over the ordered candidate list and
the first-minimum characterisation, evaluated concretely. -/
theorem calc_grid_tie_break_witness :
    calc_grid 8 = firstStrictMin (candidates 8) ∧
    (candidates 8).find? (atLeastAsGood ⟨0, "SQ2", 2, (2, 4)⟩) =
      some ⟨0, "SQ2", 2, (2, 4)⟩ := by
  have h := calc_grid_tie_break 8 (by decide)
  exact ⟨h.1, h.2 _ (by decide)⟩

/-- A PIL image, abstracted to its size and pixel contents.  `img.size` in
PIL is `(width, height)`. -/
structure Img where
  width : ℕ
  height : ℕ
  pix : ℕ → ℕ → ℕ

/-- `img.crop(box)` for a box `(left, top, right, bottom)` inside the
image: the result has size `(right - left, bottom - top)` and its pixels
are read at the translated coordinates. -/
def Img.crop (img : Img) (box : ℤ × ℤ × ℤ × ℤ) : Img :=
  ⟨(box.2.2.1 - box.1).toNat, (box.2.2.2 - box.2.1).toNat,
   fun x y => img.pix (x + box.1.toNat) (y + box.2.1.toNat)⟩

/-- The gravity clamp of `crop_to_square` (src/collage.py:52):
`gravity = max(0.0, min(1.0, gravity))`. -/
def clampGravity (gravity : ℚ) : ℚ :=
  max 0 (min 1 gravity)

/-- The crop box computed by `crop_to_square` for a non-square image
(src/collage.py:54-72).  `int(max_offset * gravity)` is Python truncation
toward zero, which equals the floor here because after clamping both
factors are non-negative. -/
def squareCropBox (width height : ℕ) (gravity : ℚ) : ℤ × ℤ × ℤ × ℤ :=
  let min_dim : ℤ := min (width : ℤ) (height : ℤ)
  let g := clampGravity gravity
  if width > height then
    let max_offset : ℤ := (width : ℤ) - min_dim
    let left : ℤ := ⌊(max_offset : ℚ) * g⌋
    (left, 0, left + min_dim, min_dim)
  else
    let max_offset : ℤ := (height : ℤ) - min_dim
    let top : ℤ := ⌊(max_offset : ℚ) * g⌋
    (0, top, min_dim, top + min_dim)

/-- `crop_to_square` (src/collage.py:27-73).  The guard
`isinstance(img, Image.Image)` cannot fail in the typed embedding; a
square image is returned unchanged, otherwise the computed box is
cropped. -/
def crop_to_square (img : Img) (gravity : ℚ) : Img :=
  if img.width = img.height then img
  else img.crop (squareCropBox img.width img.height gravity)

theorem clampGravity_nonneg (g : ℚ) : 0 ≤ clampGravity g :=
  le_max_left 0 _

theorem clampGravity_le_one (g : ℚ) : clampGravity g ≤ 1 :=
  max_le (by norm_num) (min_le_left 1 g)

theorem floor_offset_nonneg {m : ℤ} (hm : 0 ≤ m) (g : ℚ) :
    0 ≤ ⌊(m : ℚ) * clampGravity g⌋ :=
  Int.floor_nonneg.mpr (mul_nonneg (by exact_mod_cast hm) (clampGravity_nonneg g))

theorem floor_offset_le {m : ℤ} (hm : 0 ≤ m) (g : ℚ) :
    ⌊(m : ℚ) * clampGravity g⌋ ≤ m := by
  have h1 : (m : ℚ) * clampGravity g ≤ (m : ℚ) :=
    mul_le_of_le_one_right (by exact_mod_cast hm) (clampGravity_le_one g)
  calc ⌊(m : ℚ) * clampGravity g⌋ ≤ ⌊(m : ℚ)⌋ := Int.floor_le_floor h1
    _ = m := Int.floor_intCast m

theorem min_cast_int (w h : ℕ) : min (w : ℤ) (h : ℤ) = ((min w h : ℕ) : ℤ) := by
  exact_mod_cast rfl

theorem squareCropBox_landscape (w h : ℕ) (g : ℚ) (hwh : h < w) :
    squareCropBox w h g =
      (⌊((w : ℚ) - ((min w h : ℕ) : ℚ)) * clampGravity g⌋, 0,
       ⌊((w : ℚ) - ((min w h : ℕ) : ℚ)) * clampGravity g⌋ + ((min w h : ℕ) : ℤ),
       ((min w h : ℕ) : ℤ)) := by
  simp only [squareCropBox, if_pos hwh, min_cast_int]
  have : (((w : ℤ) - ((min w h : ℕ) : ℤ) : ℤ) : ℚ) = (w : ℚ) - ((min w h : ℕ) : ℚ) := by
    push_cast
    ring
  rw [this]

theorem squareCropBox_portrait (w h : ℕ) (g : ℚ) (hwh : ¬ h < w) :
    squareCropBox w h g =
      (0, ⌊((h : ℚ) - ((min w h : ℕ) : ℚ)) * clampGravity g⌋,
       ((min w h : ℕ) : ℤ),
       ⌊((h : ℚ) - ((min w h : ℕ) : ℚ)) * clampGravity g⌋ + ((min w h : ℕ) : ℤ)) := by
  simp only [squareCropBox, if_neg hwh, min_cast_int]
  have : (((h : ℤ) - ((min w h : ℕ) : ℤ) : ℤ) : ℚ) = (h : ℚ) - ((min w h : ℕ) : ℚ) := by
    push_cast
    ring
  rw [this]

theorem crop_to_square_size (w h : ℕ) (pix : ℕ → ℕ → ℕ) (g : ℚ) :
    (crop_to_square ⟨w, h, pix⟩ g).width = min w h ∧
    (crop_to_square ⟨w, h, pix⟩ g).height = min w h := by
  by_cases hq : w = h
  · subst hq
    simp [crop_to_square]
  · by_cases hwh : h < w
    · simp only [crop_to_square, hq, if_false, Img.crop,
        squareCropBox_landscape w h g hwh]
      refine ⟨by simp; omega, by simp; omega⟩
    · simp only [crop_to_square, hq, if_false, Img.crop,
        squareCropBox_portrait w h g hwh]
      refine ⟨by simp; omega, by simp; omega⟩

theorem crop_to_square_square_output (img : Img) (g : ℚ) :
    (crop_to_square img g).width = (crop_to_square img g).height := by
  obtain ⟨w, h, pix⟩ := img
  have h1 := crop_to_square_size w h pix g
  rw [h1.1, h1.2]

/-- C5: for every image and gravity, `crop_to_square` returns the image
unchanged if w = h; if w > h it crops width to min(w,h) at horizontal
offset floor((w − min(w,h)) * gravity) with full height retained; if h > w
it crops height to min(w,h) at vertical offset floor((h − min(w,h)) *
gravity) with full width retained, gravity being clamped to [0,1] before
use; on a 600×800 image gravity 0.0 yields box (0,0,600,600), gravity 1.0
yields (0,200,600,800) and gravity 0.5 yields (0,100,600,700). -/
theorem crop_to_square_spec (w h : ℕ) (pix : ℕ → ℕ → ℕ) (g : ℚ) :
    (w = h → crop_to_square ⟨w, h, pix⟩ g = ⟨w, h, pix⟩) ∧
    (h < w →
      squareCropBox w h g =
        (⌊((w : ℚ) - ((min w h : ℕ) : ℚ)) * clampGravity g⌋, 0,
         ⌊((w : ℚ) - ((min w h : ℕ) : ℚ)) * clampGravity g⌋ + ((min w h : ℕ) : ℤ),
         ((min w h : ℕ) : ℤ)) ∧
      (crop_to_square ⟨w, h, pix⟩ g).width = min w h ∧
      (crop_to_square ⟨w, h, pix⟩ g).height = h) ∧
    (w < h →
      squareCropBox w h g =
        (0, ⌊((h : ℚ) - ((min w h : ℕ) : ℚ)) * clampGravity g⌋,
         ((min w h : ℕ) : ℤ),
         ⌊((h : ℚ) - ((min w h : ℕ) : ℚ)) * clampGravity g⌋ + ((min w h : ℕ) : ℤ)) ∧
      (crop_to_square ⟨w, h, pix⟩ g).width = w ∧
      (crop_to_square ⟨w, h, pix⟩ g).height = min w h) ∧
    squareCropBox 600 800 0 = (0, 0, 600, 600) ∧
    squareCropBox 600 800 1 = (0, 200, 600, 800) ∧
    squareCropBox 600 800 (1 / 2) = (0, 100, 600, 700) := by
  refine ⟨?_, ?_, ?_,
    by norm_num [squareCropBox, clampGravity, Prod.ext_iff],
    by norm_num [squareCropBox, clampGravity, Prod.ext_iff],
    by norm_num [squareCropBox, clampGravity, Prod.ext_iff]⟩
  · intro hq
    simp [crop_to_square, hq]
  · intro hwh
    have hsz := crop_to_square_size w h pix g
    refine ⟨squareCropBox_landscape w h g hwh, hsz.1, ?_⟩
    rw [hsz.2]
    omega
  · intro hwh
    have hsz := crop_to_square_size w h pix g
    refine ⟨squareCropBox_portrait w h g (by omega), ?_, hsz.2⟩
    rw [hsz.1]
    omega

/-- Witness for C5 at concrete inputs: a square image is unchanged, a
800×600 landscape keeps its full height of 600, a 600×800 portrait keeps
its full width of 600. -/
theorem crop_to_square_spec_witness :
    crop_to_square ⟨5, 5, fun _ _ => 0⟩ (1 / 2) = ⟨5, 5, fun _ _ => 0⟩ ∧
    (crop_to_square ⟨800, 600, fun _ _ => 0⟩ (1 / 2)).height = 600 ∧
    (crop_to_square ⟨600, 800, fun _ _ => 0⟩ (1 / 2)).width = 600 := by
  refine ⟨(crop_to_square_spec 5 5 (fun _ _ => 0) (1 / 2)).1 rfl, ?_, ?_⟩
  · exact ((crop_to_square_spec 800 600 (fun _ _ => 0) (1 / 2)).2.1 (by decide)).2.2
  · exact ((crop_to_square_spec 600 800 (fun _ _ => 0) (1 / 2)).2.2.1 (by decide)).2.1

/-- C9: `crop_to_square` is idempotent: applying it to its own output
(under any gravity) returns that output unchanged, and applying it to an
already-square image returns the image unchanged. -/
theorem crop_to_square_idem (img : Img) (g g2 : ℚ) :
    crop_to_square (crop_to_square img g) g2 = crop_to_square img g ∧
    (img.width = img.height → crop_to_square img g = img) := by
  constructor
  · have hsq := crop_to_square_square_output img g
    generalize crop_to_square img g = out at hsq ⊢
    unfold crop_to_square
    rw [if_pos hsq]
  · intro hq
    simp [crop_to_square, hq]

/-- Witness for C9 at concrete inputs: the square branch at a 4×4 image,
and double application on a 600×800 image. -/
theorem crop_to_square_idem_witness :
    crop_to_square ⟨4, 4, fun _ _ => 1⟩ (1 / 3) = ⟨4, 4, fun _ _ => 1⟩ ∧
    crop_to_square (crop_to_square ⟨600, 800, fun _ _ => 0⟩ (1 / 2)) (1 / 2) =
      crop_to_square ⟨600, 800, fun _ _ => 0⟩ (1 / 2) := by
  exact ⟨(crop_to_square_idem ⟨4, 4, fun _ _ => 1⟩ (1 / 3) 0).2 rfl,
         (crop_to_square_idem ⟨600, 800, fun _ _ => 0⟩ (1 / 2) (1 / 2)).1⟩

/-- C10: for every image with w ≥ 1 and h ≥ 1 and every gravity, including
values outside [0,1], the crop box computed by `crop_to_square` lies
entirely within the image and the returned image is exactly
min(w,h) × min(w,h). -/
theorem crop_to_square_in_bounds (w h : ℕ) (pix : ℕ → ℕ → ℕ) (g : ℚ)
    (hw : 1 ≤ w) (hh : 1 ≤ h) :
    (crop_to_square ⟨w, h, pix⟩ g).width = min w h ∧
    (crop_to_square ⟨w, h, pix⟩ g).height = min w h ∧
    (w ≠ h →
      0 ≤ (squareCropBox w h g).1 ∧
      (squareCropBox w h g).2.2.1 ≤ (w : ℤ) ∧
      0 ≤ (squareCropBox w h g).2.1 ∧
      (squareCropBox w h g).2.2.2 ≤ (h : ℤ) ∧
      (squareCropBox w h g).2.2.1 - (squareCropBox w h g).1 = ((min w h : ℕ) : ℤ) ∧
      (squareCropBox w h g).2.2.2 - (squareCropBox w h g).2.1 = ((min w h : ℕ) : ℤ)) := by
  have hsz := crop_to_square_size w h pix g
  refine ⟨hsz.1, hsz.2, ?_⟩
  intro hq
  by_cases hwh : h < w
  · rw [squareCropBox_landscape w h g hwh]
    dsimp only
    have hmle : ((min w h : ℕ) : ℤ) ≤ (w : ℤ) := by
      exact_mod_cast Nat.min_le_left w h
    have hoff0 : (0 : ℤ) ≤ (w : ℤ) - ((min w h : ℕ) : ℤ) := by omega
    have h1 : 0 ≤ ⌊((w : ℚ) - ((min w h : ℕ) : ℚ)) * clampGravity g⌋ := by
      have := floor_offset_nonneg hoff0 g
      rwa [show (((w : ℤ) - ((min w h : ℕ) : ℤ) : ℤ) : ℚ) =
        (w : ℚ) - ((min w h : ℕ) : ℚ) by push_cast; ring] at this
    have h2 : ⌊((w : ℚ) - ((min w h : ℕ) : ℚ)) * clampGravity g⌋ ≤
        (w : ℤ) - ((min w h : ℕ) : ℤ) := by
      have := floor_offset_le hoff0 g
      rwa [show (((w : ℤ) - ((min w h : ℕ) : ℤ) : ℤ) : ℚ) =
        (w : ℚ) - ((min w h : ℕ) : ℚ) by push_cast; ring] at this
    refine ⟨h1, by omega, by omega, ?_, by ring, by omega⟩
    exact_mod_cast Nat.min_le_right w h
  · rw [squareCropBox_portrait w h g hwh]
    dsimp only
    have hmle : ((min w h : ℕ) : ℤ) ≤ (h : ℤ) := by
      exact_mod_cast Nat.min_le_right w h
    have hoff0 : (0 : ℤ) ≤ (h : ℤ) - ((min w h : ℕ) : ℤ) := by omega
    have h1 : 0 ≤ ⌊((h : ℚ) - ((min w h : ℕ) : ℚ)) * clampGravity g⌋ := by
      have := floor_offset_nonneg hoff0 g
      rwa [show (((h : ℤ) - ((min w h : ℕ) : ℤ) : ℤ) : ℚ) =
        (h : ℚ) - ((min w h : ℕ) : ℚ) by push_cast; ring] at this
    have h2 : ⌊((h : ℚ) - ((min w h : ℕ) : ℚ)) * clampGravity g⌋ ≤
        (h : ℤ) - ((min w h : ℕ) : ℤ) := by
      have := floor_offset_le hoff0 g
      rwa [show (((h : ℤ) - ((min w h : ℕ) : ℤ) : ℤ) : ℚ) =
        (h : ℚ) - ((min w h : ℕ) : ℚ) by push_cast; ring] at this
    have hmlw : ((min w h : ℕ) : ℤ) ≤ (w : ℤ) := by
      exact_mod_cast Nat.min_le_left w h
    exact ⟨by omega, by omega, h1, by omega, by omega, by ring⟩

/-- Witness for C10 at a 600×800 image with the out-of-range gravity 7:
the result is 600×600 and the box stays inside the image. -/
theorem crop_to_square_in_bounds_witness :
    (crop_to_square ⟨600, 800, fun _ _ => 0⟩ 7).width = min 600 800 ∧
    0 ≤ (squareCropBox 600 800 7).2.1 ∧
    (squareCropBox 600 800 7).2.2.2 ≤ (800 : ℤ) := by
  have hth := crop_to_square_in_bounds 600 800 (fun _ _ => 0) 7 (by decide) (by decide)
  exact ⟨hth.1, (hth.2.2 (by decide)).2.2.1, (hth.2.2 (by decide)).2.2.2.1⟩

/-- The keyword parameters of `create_collage` (src/collage.py:76-88) with
their Python defaults; `output_size` and the grid shape are passed
separately, as in the source. -/
structure CollageCfg where
  frame_spacing : ℤ := 10
  col_spacing : ℤ := 10
  row_spacing : ℤ := 10
  bg_color : String := "white"
  crop_images_to_square : Bool := false
  crop_gravity : ℚ := 1 / 2
  output_filename : String := "collage.jpg"

/-- One `collage_image.paste(...)` performed by the cell loop: which cell,
which source index, where the (possibly cropped and thumbnailed) image was
pasted, and the image itself. -/
structure Placement where
  row : ℕ
  col : ℕ
  idx : ℕ
  paste_x : ℤ
  paste_y : ℤ
  img : Img

/-- Everything the cell loop body of `create_collage` reads: the external
loader (`open_image`) and thumbnail collaborators, the source list, the
parameters, and the precomputed cell geometry. -/
structure BuildCtx where
  loader : String → Option Img
  thumb : Img → ℤ × ℤ → Img
  image_paths : List String
  cfg : CollageCfg
  cell_width : ℤ
  cell_height : ℤ
  cell_size : ℤ × ℤ
  grid_origin_x : ℤ
  grid_origin_y : ℤ

/-- The observable outcome of a successful `create_collage` run: the grid
shape it laid out, the computed geometry, the pastes performed, and the
filename handed to `collage_image.save` (src/collage.py:144). -/
structure Collage where
  grid_cols : ℕ
  grid_rows : ℕ
  cell_width : ℤ
  cell_height : ℤ
  grid_origin_x : ℤ
  grid_origin_y : ℤ
  placements : List Placement
  output_filename : String

/-- The cells visited by the double loop `for row in range(grid_rows): for
col in range(grid_cols)` (src/collage.py:121-122), in visit order. -/
def cellList (grid_rows grid_cols : ℕ) : List (ℕ × ℕ) :=
  (List.range grid_rows).flatMap (fun row =>
    (List.range grid_cols).map (fun col => (row, col)))

/-- The paste performed for a successfully loaded image (src/collage.py:
124-140): optional square crop (`crop_to_square` cannot return `None` on a
loaded image, so the `continue` on line 132 is unreachable), thumbnail to
`cell_size`, centre in the cell with Python floor division. -/
def placeOne (ctx : BuildCtx) (rc : ℕ × ℕ) (idx : ℕ) (img0 : Img) : Placement :=
  let cell_origin_x := ctx.grid_origin_x + (rc.2 : ℤ) * (ctx.cell_width + ctx.cfg.col_spacing)
  let cell_origin_y := ctx.grid_origin_y + (rc.1 : ℤ) * (ctx.cell_height + ctx.cfg.row_spacing)
  let img1 := if ctx.cfg.crop_images_to_square then crop_to_square img0 ctx.cfg.crop_gravity else img0
  let img2 := ctx.thumb img1 ctx.cell_size
  ⟨rc.1, rc.2, idx,
   cell_origin_x + (ctx.cell_width - (img2.width : ℤ)).fdiv 2,
   cell_origin_y + (ctx.cell_height - (img2.height : ℤ)).fdiv 2,
   img2⟩

/-- One iteration of the cell loop (src/collage.py:123-141), acting on the
state `(image_index, pastes so far)`: when sources remain, the current one
is loaded; a loader failure skips the paste but still advances
`image_index`; when sources are exhausted the cell is left untouched. -/
def placeStep (ctx : BuildCtx) (st : ℕ × List Placement) (rc : ℕ × ℕ) :
    ℕ × List Placement :=
  if h : st.1 < ctx.image_paths.length then
    match ctx.loader (ctx.image_paths.get ⟨st.1, h⟩) with
    | none => (st.1 + 1, st.2)
    | some img0 => (st.1 + 1, st.2 ++ [placeOne ctx rc st.1 img0])
  else st

/-- The cell geometry computed by `create_collage` (src/collage.py:
100-118), bundled with the collaborators for the cell loop.  Python `//`
is `Int.fdiv` (floor division). -/
def collageCtx (loader : String → Option Img) (thumb : Img → ℤ × ℤ → Img)
    (image_paths : List String) (output_size : ℤ × ℤ)
    (grid_cols grid_rows : ℕ) (cfg : CollageCfg) : BuildCtx :=
  let total_col_spacing := ((grid_cols : ℤ) - 1) * cfg.col_spacing
  let total_row_spacing := ((grid_rows : ℤ) - 1) * cfg.row_spacing
  let available_width := output_size.1 - 2 * cfg.frame_spacing - total_col_spacing
  let available_height := output_size.2 - 2 * cfg.frame_spacing - total_row_spacing
  let cell_width := available_width.fdiv (grid_cols : ℤ)
  let cell_height := available_height.fdiv (grid_rows : ℤ)
  let cell_size : ℤ × ℤ :=
    if cfg.crop_images_to_square then
      (min cell_width cell_height, min cell_width cell_height)
    else (cell_width, cell_height)
  let total_grid_width := (grid_cols : ℤ) * cell_width + total_col_spacing
  let total_grid_height := (grid_rows : ℤ) * cell_height + total_row_spacing
  let grid_origin_x := (output_size.1 - total_grid_width).fdiv 2
  let grid_origin_y := (output_size.2 - total_grid_height).fdiv 2
  ⟨loader, thumb, image_paths, cfg,
    cell_width, cell_height, cell_size, grid_origin_x, grid_origin_y⟩

/-- `create_collage` (src/collage.py:76-147).  The empty-source early exit
(lines 92-94, `print` plus bare `return`) is the `Except.error`; all other
runs reach the save call, modelled by returning the `Collage` carrying the
output filename. -/
def create_collage (loader : String → Option Img) (thumb : Img → ℤ × ℤ → Img)
    (image_paths : List String) (output_size : ℤ × ℤ)
    (grid_cols grid_rows : ℕ) (cfg : CollageCfg) : Except String Collage :=
  if image_paths.isEmpty then
    .error "Error: No image paths provided."
  else
    let ctx := collageCtx loader thumb image_paths output_size grid_cols grid_rows cfg
    let final := (cellList grid_rows grid_cols).foldl (placeStep ctx) (0, [])
    .ok ⟨grid_cols, grid_rows, ctx.cell_width, ctx.cell_height,
      ctx.grid_origin_x, ctx.grid_origin_y, final.2, cfg.output_filename⟩

/-- The usable interior width of the canvas as the spec defines it
(canvas width − 2*frame margin − (cols−1)*column spacing); `create_collage`
computes exactly this as `available_width` but never validates it. -/
def usableWidth (output_size : ℤ × ℤ) (grid_cols : ℕ) (cfg : CollageCfg) : ℤ :=
  output_size.1 - 2 * cfg.frame_spacing - ((grid_cols : ℤ) - 1) * cfg.col_spacing

/-- The orientation swap of `create_auto_grid_collage`
(src/collage.py:190-198), returning the adjusted `(rows, cols)`. -/
def orientGrid (grid : ℕ × ℕ) (output_size : ℤ × ℤ) : ℕ × ℕ :=
  if output_size.1 > output_size.2 ∧ grid.1 > grid.2 then (grid.2, grid.1)
  else if output_size.2 > output_size.1 ∧ grid.2 > grid.1 then (grid.2, grid.1)
  else (grid.1, grid.2)

/-- `create_auto_grid_collage` (src/collage.py:173-206): solve the grid for
the number of sources, apply the orientation swap, and delegate to
`create_collage` with `grid_cols := cols`, `grid_rows := rows`.  The two
`print`-and-`return` exits are `Except.error`. -/
def create_auto_grid_collage (loader : String → Option Img)
    (thumb : Img → ℤ × ℤ → Img) (image_paths : List String)
    (output_size : ℤ × ℤ) (cfg : CollageCfg) : Except String Collage :=
  let n := image_paths.length
  if n = 0 then .error "No images to create a collage from."
  else
    match calc_grid (n : ℤ) with
    | none => .error "Could not calculate a grid."
    | some grid_info =>
      let rc := orientGrid grid_info.grid output_size
      create_collage loader thumb image_paths output_size rc.2 rc.1 cfg

/-- Proof-side recursion computing the pastes of the cell loop directly:
the same decisions as `placeStep`, cell by cell. -/
def placeList (ctx : BuildCtx) : ℕ → List (ℕ × ℕ) → List Placement
  | _, [] => []
  | i0, rc :: rest =>
    if h : i0 < ctx.image_paths.length then
      match ctx.loader (ctx.image_paths.get ⟨i0, h⟩) with
      | none => placeList ctx (i0 + 1) rest
      | some img0 => placeOne ctx rc i0 img0 :: placeList ctx (i0 + 1) rest
    else []

theorem placeList_of_ge (ctx : BuildCtx) :
    ∀ (cells : List (ℕ × ℕ)) (i0 : ℕ), ctx.image_paths.length ≤ i0 →
      placeList ctx i0 cells = [] := by
  intro cells i0 hge
  cases cells with
  | nil => rfl
  | cons rc rest =>
    rw [placeList, dif_neg (by omega)]

theorem foldl_placeStep (ctx : BuildCtx) :
    ∀ (cells : List (ℕ × ℕ)) (i0 : ℕ) (acc : List Placement),
      (cells.foldl (placeStep ctx) (i0, acc)).2 = acc ++ placeList ctx i0 cells := by
  intro cells
  induction cells with
  | nil =>
    intro i0 acc
    simp [placeList]
  | cons rc rest ih =>
    intro i0 acc
    rw [List.foldl_cons]
    by_cases h : i0 < ctx.image_paths.length
    · cases hl : ctx.loader (ctx.image_paths.get ⟨i0, h⟩) with
      | none =>
        have hstep : placeStep ctx (i0, acc) rc = (i0 + 1, acc) := by
          simp only [placeStep, dif_pos h, hl]
        rw [hstep, ih, placeList, dif_pos h, hl]
      | some img0 =>
        have hstep : placeStep ctx (i0, acc) rc =
            (i0 + 1, acc ++ [placeOne ctx rc i0 img0]) := by
          simp only [placeStep, dif_pos h, hl]
        rw [hstep, ih, placeList, dif_pos h, hl, List.append_assoc,
          List.singleton_append]
    · have hstep : placeStep ctx (i0, acc) rc = (i0, acc) := by
        simp only [placeStep, dif_neg h]
      rw [hstep, ih, placeList, dif_neg h,
        placeList_of_ge ctx rest i0 (by omega)]

theorem placeList_map_idx (ctx : BuildCtx) (k : ℕ)
    (hfail : ∀ j (hj : j < ctx.image_paths.length),
      ctx.loader (ctx.image_paths.get ⟨j, hj⟩) = none ↔ j = k) :
    ∀ (cells : List (ℕ × ℕ)) (i0 : ℕ),
      ctx.image_paths.length - i0 ≤ cells.length →
      (placeList ctx i0 cells).map Placement.idx =
        (List.range' i0 (ctx.image_paths.length - i0)).filter
          (fun j => decide ¬ j = k) := by
  intro cells
  induction cells with
  | nil =>
    intro i0 hlen
    have h0 : ctx.image_paths.length - i0 = 0 := by simpa using hlen
    simp [placeList, h0]
  | cons rc rest ih =>
    intro i0 hlen
    by_cases h : i0 < ctx.image_paths.length
    · have hm : ctx.image_paths.length - i0 = (ctx.image_paths.length - (i0 + 1)) + 1 := by
        omega
      rw [hm, List.range'_succ]
      cases hl : ctx.loader (ctx.image_paths.get ⟨i0, h⟩) with
      | none =>
        have hik : i0 = k := (hfail i0 h).mp hl
        rw [placeList, dif_pos h, hl,
          List.filter_cons_of_neg (by simp [hik]),
          ih (i0 + 1) (by simp at hlen ⊢; omega)]
      | some img0 =>
        have hik : ¬ i0 = k := by
          intro hik
          rw [(hfail i0 h).mpr hik] at hl
          cases hl
        rw [placeList, dif_pos h, hl, List.map_cons,
          List.filter_cons_of_pos (by simp [hik]),
          ih (i0 + 1) (by simp at hlen ⊢; omega)]
        rfl
    · have h0 : ctx.image_paths.length - i0 = 0 := by omega
      rw [placeList, dif_neg h, h0]
      simp

theorem cellList_length (gr gc : ℕ) : (cellList gr gc).length = gr * gc := by
  induction gr with
  | zero => simp [cellList]
  | succ m ih =>
    have hsplit : cellList (m + 1) gc =
        cellList m gc ++ (List.range gc).map (fun col => (m, col)) := by
      simp [cellList, List.range_succ]
    rw [hsplit, List.length_append, ih, List.length_map, List.length_range]
    ring

theorem range_filter_ne_length (n k : ℕ) (hk : k < n) :
    ((List.range n).filter (fun j => decide ¬ j = k)).length = n - 1 := by
  induction n with
  | zero => cases hk
  | succ m ih =>
    rw [List.range_succ, List.filter_append, List.length_append]
    by_cases hm : k = m
    · have hself : (List.range m).filter (fun j => decide ¬ j = k) = List.range m := by
        refine List.filter_eq_self.mpr ?_
        intro a ha
        have ham : a < m := List.mem_range.mp ha
        simp
        omega
      rw [hself, List.filter_cons_of_neg (by simp [hm]), List.filter_nil]
      simp
    · have hk2 : k < m := by omega
      rw [List.filter_cons_of_pos (by simp; omega), List.filter_nil, ih hk2]
      simp
      omega

/-- C8: `create_collage` called with an empty source list fails with the
configuration error (the `print`-and-`return` at src/collage.py:92-94,
modelled as `Except.error`), before the canvas is created: no `Collage`
value is produced and the save step is never reached. -/
theorem create_collage_empty_error (loader : String → Option Img)
    (thumb : Img → ℤ × ℤ → Img) (output_size : ℤ × ℤ)
    (grid_cols grid_rows : ℕ) (cfg : CollageCfg) :
    create_collage loader thumb [] output_size grid_cols grid_rows cfg =
      .error "Error: No image paths provided." :=
  rfl

/-- Whether a `create_collage` run reached the save step with a built
canvas. -/
def isBuilt : Except String Collage → Bool
  | .ok _ => true
  | .error _ => false

/-- C2 (counterexample): with a 100×100 canvas, a 1×1 grid and frame
spacing 60 the usable interior width is 100 − 2·60 − 0 = −20 ≤ 0, yet
`create_collage` raises no ConfigurationError and proceeds to build and
save: it performs no usable-dimension validation at all. -/
theorem create_collage_no_usable_check :
    usableWidth (100, 100) 1 { frame_spacing := 60 } ≤ 0 ∧
    isBuilt (create_collage (fun _ => none) (fun i _ => i) ["a"] (100, 100) 1 1
      { frame_spacing := 60 }) = true := by
  constructor
  · norm_num [usableWidth]
  · rfl

/-- C2 (amended): `create_collage` never validates the usable interior
dimensions; for every nonempty source list it reaches the save step and
returns a built collage, whatever the canvas, spacing and grid values
(cell sizes simply go non-positive). -/
theorem create_collage_nonempty_builds (loader : String → Option Img)
    (thumb : Img → ℤ × ℤ → Img) (image_paths : List String)
    (output_size : ℤ × ℤ) (grid_cols grid_rows : ℕ) (cfg : CollageCfg)
    (hne : image_paths ≠ []) :
    ∃ c, create_collage loader thumb image_paths output_size
      grid_cols grid_rows cfg = .ok c := by
  cases image_paths with
  | nil => exact absurd rfl hne
  | cons a t => exact ⟨_, rfl⟩

/-- Witness for the amended C2: a singleton source list on a 100×100
canvas with frame spacing 60 (usable width −20) still builds. -/
theorem create_collage_nonempty_builds_witness :
    ∃ c, create_collage (fun _ => none) (fun i _ => i) ["a"] (100, 100) 1 1
      { frame_spacing := 60 } = .ok c :=
  create_collage_nonempty_builds _ _ _ _ _ _ _ (by simp)

/-- C6: when among the sources assigned to grid cells exactly the one at
index k fails to load and all others load, `create_collage` completes
without error (the per-image failure never aborts the build), and the
pastes performed are exactly one per source index other than k, in order:
the single cell assigned to the failing source stays at the background
colour and the other assigned cells are filled. -/
theorem create_collage_one_failure (loader : String → Option Img)
    (thumb : Img → ℤ × ℤ → Img) (image_paths : List String)
    (output_size : ℤ × ℤ) (grid_cols grid_rows : ℕ) (cfg : CollageCfg)
    (k : ℕ) (hk : k < image_paths.length)
    (hcap : image_paths.length ≤ grid_rows * grid_cols)
    (hfail : ∀ j (hj : j < image_paths.length),
      loader (image_paths.get ⟨j, hj⟩) = none ↔ j = k) :
    ∃ c, create_collage loader thumb image_paths output_size
        grid_cols grid_rows cfg = .ok c ∧
      c.placements.map Placement.idx =
        (List.range image_paths.length).filter (fun j => decide ¬ j = k) ∧
      c.placements.length = image_paths.length - 1 := by
  cases hpaths : image_paths with
  | nil => rw [hpaths] at hk; cases hk
  | cons a t =>
    subst hpaths
    refine ⟨_, rfl, ?_⟩
    have hplace :
        (((cellList grid_rows grid_cols).foldl
          (placeStep (collageCtx loader thumb (a :: t) output_size
            grid_cols grid_rows cfg)) (0, [])).2).map Placement.idx =
          (List.range' 0 ((a :: t).length - 0)).filter (fun j => decide ¬ j = k) := by
      rw [foldl_placeStep, List.nil_append]
      exact placeList_map_idx
        (collageCtx loader thumb (a :: t) output_size grid_cols grid_rows cfg)
        k hfail (cellList grid_rows grid_cols) 0
        (by rw [cellList_length]; simpa using hcap)
    rw [Nat.sub_zero, ← List.range_eq_range'] at hplace
    refine ⟨hplace, ?_⟩
    have hlen := congrArg List.length hplace
    rw [List.length_map, range_filter_ne_length _ k hk] at hlen
    exact hlen

/-- Witness for C6: three sources of which only the middle one is
unavailable, on a 2×2 grid; the build succeeds and pastes exactly the
indices 0 and 2. -/
theorem create_collage_one_failure_witness :
    ∃ c, create_collage
        (fun s => if s = "bad" then none else some ⟨1, 1, fun _ _ => 0⟩)
        (fun i _ => i) ["a", "bad", "c"] (100, 100) 2 2 { } = .ok c ∧
      c.placements.map Placement.idx =
        (List.range 3).filter (fun j => decide ¬ j = 1) ∧
      c.placements.length = 2 := by
  have hth := create_collage_one_failure
    (fun s => if s = "bad" then none else some ⟨1, 1, fun _ _ => 0⟩)
    (fun i _ => i) ["a", "bad", "c"] (100, 100) 2 2 { } 1
    (by decide) (by decide) ?_
  · exact hth
  · intro j hj
    have hj3 : j < 3 := by simpa using hj
    interval_cases j <;> simp

/-- C7: after solving the grid, `create_auto_grid_collage` delegates to
`create_collage` with the orientation-adjusted grid; the adjustment swaps
(rows, cols) when the canvas is wider than tall and rows > cols, swaps when
the canvas is taller than wide and cols > rows, and otherwise (square
canvases included) keeps the solver's orientation — so a (2,4) result
stays (2,4) on a wider-than-tall canvas and becomes (4,2) on a
taller-than-wide canvas. -/
theorem create_auto_grid_orientation (loader : String → Option Img)
    (thumb : Img → ℤ × ℤ → Img) (image_paths : List String)
    (output_size : ℤ × ℤ) (cfg : CollageCfg) (r : GridResult)
    (hne : image_paths ≠ [])
    (hr : calc_grid (image_paths.length : ℤ) = some r) :
    create_auto_grid_collage loader thumb image_paths output_size cfg =
      create_collage loader thumb image_paths output_size
        (orientGrid r.grid output_size).2 (orientGrid r.grid output_size).1 cfg ∧
    (∀ (rows cols : ℕ) (w h : ℤ),
      (h < w → cols < rows → orientGrid (rows, cols) (w, h) = (cols, rows)) ∧
      (w < h → rows < cols → orientGrid (rows, cols) (w, h) = (cols, rows)) ∧
      (¬ (h < w ∧ cols < rows) → ¬ (w < h ∧ rows < cols) →
        orientGrid (rows, cols) (w, h) = (rows, cols))) ∧
    (∀ w h : ℤ, h < w → orientGrid (2, 4) (w, h) = (2, 4)) ∧
    (∀ w h : ℤ, w < h → orientGrid (2, 4) (w, h) = (4, 2)) := by
  refine ⟨?_, ?_, ?_, ?_⟩
  · have hn0 : ¬ image_paths.length = 0 := by
      simpa [List.length_eq_zero] using hne
    simp only [create_auto_grid_collage, if_neg hn0, hr]
  · intro rows cols w h
    refine ⟨?_, ?_, ?_⟩
    · intro hwh hrc
      simp only [orientGrid]
      rw [if_pos ⟨hwh, hrc⟩]
    · intro hwh hrc
      simp only [orientGrid]
      rw [if_neg (by simp; omega), if_pos ⟨hwh, hrc⟩]
    · intro h1 h2
      simp only [orientGrid]
      rw [if_neg (by simpa using h1), if_neg (by simpa using h2)]
  · intro w h hwh
    simp only [orientGrid]
    rw [if_neg (by simp), if_neg (by simp <;> omega)]
  · intro w h hwh
    simp only [orientGrid]
    rw [if_neg (by simp), if_pos (by simp <;> omega)]

/-- Witness for C7: eight sources solve to (2,4); on the 1200×800
landscape canvas the grid is kept as is (columns 4, rows 2), and on a
taller-than-wide canvas `orientGrid` swaps (2,4) to (4,2). -/
theorem create_auto_grid_orientation_witness :
    create_auto_grid_collage (fun _ => none) (fun i _ => i)
      ["a", "b", "c", "d", "e", "f", "g", "h"] (1200, 800) { } =
      create_collage (fun _ => none) (fun i _ => i)
        ["a", "b", "c", "d", "e", "f", "g", "h"] (1200, 800) 4 2 { } ∧
    orientGrid (2, 4) (800, 1200) = (4, 2) := by
  have hth := create_auto_grid_orientation (fun _ => none) (fun i _ => i)
    ["a", "b", "c", "d", "e", "f", "g", "h"] (1200, 800) { }
    ⟨0, "SQ2", 2, (2, 4)⟩ (by simp) (by decide)
  exact ⟨hth.1, hth.2.2.2 800 1200 (by decide)⟩
